import Mathlib

/-!
# windriver: window object, message handlers and blit primitives

A shallow embedding of `shiny/driver/windriver/window.go` and
`shiny/driver/windriver/windraw.go`.

* Go values that are mutated through a pointer (`*windowImpl`, the package
  level `uploads` / `uploadID`) are passed explicitly as state.
* Calls that leave the package (Win32 wrappers, `win32.SendMessage`,
  `drawer.Copy`, the `preUpload` / `postUpload` hooks) are recorded, in
  execution order, in a log of `Call`s together with the error each one
  returned; what each native call returns is chosen by an `Outcomes` record,
  over which the theorems quantify.
* A Go `panic(v)` is reported as a value: `Except.error v` for the event
  routing functions, and `some v` in the last component of the result of the
  window methods and message handlers (whose deferred calls still run and are
  in the log).
* Machine integers are `Nat` / `Int` with explicit wrap-around.
-/

namespace Windriver

/-! ## Machine integers -/

/-- Conversion of an integer to a signed two's complement value of `bits` bits. -/
def wrapSigned (bits : Nat) (x : Int) : Int :=
  (x + 2 ^ (bits - 1)) % 2 ^ bits - 2 ^ (bits - 1)

/-- Go conversion `int32(x)`. -/
def int32 (x : Int) : Int := wrapSigned 32 x

/-- Width of Go's `int` and `uintptr` on windows/amd64. -/
def intBits : Nat := 64

/-- Truncation to `uintptr`. -/
def uintptr (x : Nat) : Nat := x % 2 ^ intBits

/-- Go conversion `byte(x)` of an unsigned value. -/
def byte (x : Nat) : Nat := x % 2 ^ 8

/-- Truncation to `uint32`. -/
def uint32 (x : Nat) : Nat := x % 2 ^ 32

/-! ## Data model -/

/-- The type `syscall.Handle` (a `uintptr`). -/
abbrev Handle := Nat

/-- The type `image.Point`. -/
structure Point where
  X : Int
  Y : Int
  deriving DecidableEq, Repr

/-- The type `image.Rectangle`. -/
structure Rectangle where
  Min : Point
  Max : Point
  deriving DecidableEq, Repr

/-- The method `image.Rectangle.Dx`: `r.Max.X - r.Min.X` in `int` arithmetic. -/
def Rectangle.Dx (r : Rectangle) : Int := wrapSigned intBits (r.Max.X - r.Min.X)

/-- The method `image.Rectangle.Dy`: `r.Max.Y - r.Min.Y` in `int` arithmetic. -/
def Rectangle.Dy (r : Rectangle) : Int := wrapSigned intBits (r.Max.Y - r.Min.Y)

/-- The type `draw.Op` (`type Op int`). -/
abbrev Op := Int

/-- The constant `draw.Over`. -/
def draw.Over : Op := 0

/-- The constant `draw.Src`. -/
def draw.Src : Op := 1

/-- The type `lifecycle.Stage` (`type Stage uint32`). -/
abbrev Stage := Nat

/-- Events handed to `event.Queue.Send` by this file. `S` is `size.Event`;
`paint` is the zero value `paint.Event{}`. -/
inductive Event (S : Type) where
  | size (e : S)
  | paint
  | lifecycle (From To : Stage)
  deriving DecidableEq, Repr

/-- The struct `windowImpl`. The embedded `event.Queue` is represented by the
events passed to its `Send` method so far, oldest first. -/
structure windowImpl (S : Type) where
  hwnd : Handle
  Queue : List (Event S)
  sz : S
  lifecycleStage : Stage

/-- Modelled from the spec: `event.Queue.Send` is not part of this fragment; the
queue is push-only and FIFO, so `Send` appends the event to what was sent. -/
def windowImpl.Send {S : Type} (w : windowImpl S) (e : Event S) : windowImpl S :=
  { w with Queue := w.Queue ++ [e] }

/-- The part of `theScreen` used here: the table `theScreen.windows`, from
native handle to window object (a missing key yields the nil pointer). -/
structure screenImpl (S : Type) where
  windows : Handle → Option (windowImpl S)

/-- Store of a window object back under its handle. -/
def screenImpl.set {S : Type} (s : screenImpl S) (hwnd : Handle) (w : windowImpl S) :
    screenImpl S :=
  { windows := fun h => if h = hwnd then some w else s.windows h }

/-- Values a handler can panic with, and the `error` values of this package. -/
inductive Error where
  /-- a non-nil error returned by a Win32 wrapper -/
  | native (code : Nat)
  /-- the error `fmt.Errorf("windriver: invalid draw operation %v", op)` -/
  | invalidOp (op : Op)
  /-- a nil pointer dereference -/
  | nilDeref
  /-- a failed type assertion -/
  | typeAssertion
  deriving DecidableEq, Repr

/-! ## Calls that leave the package -/

/-- The struct `_RECT` (four `int32` fields). -/
structure RECT where
  Left : Int
  Top : Int
  Right : Int
  Bottom : Int
  deriving DecidableEq, Repr

/-- The struct `_BLENDFUNCTION`. -/
structure BLENDFUNCTION where
  BlendOp : Nat
  BlendFlags : Nat
  SourceConstantAlpha : Nat
  AlphaFormat : Nat
  deriving DecidableEq, Repr

/-- Win32 constant `AC_SRC_OVER`, declared outside this fragment. -/
def AC_SRC_OVER : Nat := 0

/-- Win32 constant `AC_SRC_ALPHA`, declared outside this fragment. -/
def AC_SRC_ALPHA : Nat := 1

/-- Win32 raster operation `SRCCOPY`, declared outside this fragment. -/
def SRCCOPY : Nat := 0x00CC0020

/-- The variable `blendOverFunc`. -/
def blendOverFunc : BLENDFUNCTION :=
  { BlendOp := AC_SRC_OVER, BlendFlags := 0, SourceConstantAlpha := 255,
    AlphaFormat := AC_SRC_ALPHA }

/-- The struct `handleCopyParams`. -/
structure handleCopyParams where
  dp : Point
  src : Handle
  sr : Rectangle
  op : Op
  deriving DecidableEq, Repr

/-- The field of `textureImpl` read by this file. -/
structure textureImpl where
  bitmap : Handle
  deriving DecidableEq, Repr

/-- The field of `bufferImpl` read by this file. -/
structure bufferImpl where
  hbitmap : Handle
  deriving DecidableEq, Repr

/-- A value of the interface `screen.Texture`: the nil interface, a
`*textureImpl` (possibly a nil pointer), or a value of another type. -/
inductive Texture where
  | nil
  | impl (p : Option textureImpl)
  | foreign (id : Nat)
  deriving DecidableEq, Repr

/-- A value of the interface `screen.Buffer`: the nil interface, a
`*bufferImpl` (possibly a nil pointer), or a value of another type. -/
inductive Buffer where
  | nil
  | impl (p : Option bufferImpl)
  | foreign (id : Nat)
  deriving DecidableEq, Repr

/-- A `*screen.DrawOptions` pointer: nil or an address. -/
abbrev DrawOptions := Option Nat

/-- The window message identifiers handed out by `win32.AddWindowMsg`, named
after the package variables that hold them. -/
inductive Msg where
  | msgFillSrc
  | msgFillOver
  | msgUpload
  | msgCopy
  deriving DecidableEq, Repr

/-- The `lParam` of a message: zero, or the address of a value that lives on
the sender's stack for the duration of the synchronous send. -/
inductive LParam where
  | zero
  | rect (r : RECT)
  | copyParams (p : handleCopyParams)
  deriving DecidableEq, Repr

/-- A call made to code outside these two files, with its arguments. -/
inductive Call where
  | SendMessage (hwnd : Handle) (msg : Msg) (wParam : Nat) (lParam : LParam)
  | drawerCopy (w : Handle) (dp : Point) (src : Texture) (sr : Rectangle) (op : Op)
      (opts : DrawOptions)
  | GetDC (hwnd : Handle)
  | ReleaseDC (hwnd dc : Handle)
  | CreateCompatibleDC (dc : Handle)
  | DeleteDC (dc : Handle)
  | SelectObject (dc obj : Handle)
  | BitBlt (dc : Handle) (x y w h : Int) (src : Handle) (sx sy : Int) (rop : Nat)
  | AlphaBlend (dc : Handle) (x y w h : Int) (src : Handle) (sx sy sw sh : Int)
      (f : BLENDFUNCTION)
  | RGB (r g b : Nat)
  | CreateSolidBrush (color : Nat)
  | FillRect (dc : Handle) (r : RECT) (brush : Handle)
  | DeleteObject (obj : Handle)
  | preUpload (b : Option bufferImpl)
  | postUpload (b : Option bufferImpl)
  deriving DecidableEq, Repr

/-- One executed call and the error code it returned (`none` for a nil error
and for calls that return no error). -/
abbrev Entry := Call × Option Nat

/-- What each native call returns, in the order the code reaches them: a
handle or an error code for the calls that produce a handle, an optional error
code for the others. `SelectObject` is the first selection (of the source
bitmap) and `SelectRestore` the second (of the previous bitmap). -/
structure Outcomes where
  GetDC : Except Nat Handle
  ReleaseDC : Option Nat
  CreateCompatibleDC : Except Nat Handle
  SelectObject : Except Nat Handle
  BitBlt : Option Nat
  AlphaBlend : Option Nat
  SelectRestore : Except Nat Handle
  DeleteDC : Option Nat
  CreateSolidBrush : Except Nat Handle
  FillRect : Option Nat
  DeleteObject : Option Nat

/-- The error code of an outcome that produces a handle. -/
def errOf (r : Except Nat Handle) : Option Nat :=
  match r with
  | .error e => some e
  | .ok _ => none

/-- A Go `error` value built from an optional native error code. -/
def toError (e : Option Nat) : Option Error := e.map Error.native

/-- Modelled from the spec: `_RGB` is declared outside this fragment; it builds
the native colour `0x00BBGGRR` from its three bytes. -/
def RGB (r g b : Nat) : Nat := r ||| (g <<< 8) ||| (b <<< 16)

/-! ## Blit primitives (`windraw.go`) -/

/-- The function `blend`. The second component is the returned `error`. -/
def blend (o : Outcomes) (dc bitmap : Handle) (dr : RECT) (sdx sdy : Int) :
    List Entry × Option Error :=
  match o.CreateCompatibleDC with
  | .error e => ([(.CreateCompatibleDC dc, some e)], some (.native e))
  | .ok compatibleDC =>
    let body : List Entry × Option Error :=
      match o.SelectObject with
      | .error e => ([(.SelectObject compatibleDC bitmap, some e)], some (.native e))
      | .ok prevBitmap =>
        let ab : Entry :=
          (.AlphaBlend dc dr.Left dr.Top (int32 (dr.Right - dr.Left))
            (int32 (dr.Bottom - dr.Top)) compatibleDC 0 0 sdx sdy blendOverFunc,
           o.AlphaBlend)
        match o.AlphaBlend with
        | some e => ([(.SelectObject compatibleDC bitmap, none), ab], some (.native e))
        | none =>
          ([(.SelectObject compatibleDC bitmap, none), ab,
            (.SelectObject compatibleDC prevBitmap, errOf o.SelectRestore)],
           toError (errOf o.SelectRestore))
    -- deferred: err2 := _DeleteDC(compatibleDC); if err == nil { err = err2 }
    let err2 := o.DeleteDC
    let err := if body.2 = none then toError err2 else body.2
    ((.CreateCompatibleDC dc, none) :: body.1 ++ [(.DeleteDC compatibleDC, err2)], err)

/-- The function `copyBitmapToDC`. The second component is the returned
`error` (`retErr`). -/
def copyBitmapToDC (o : Outcomes) (dc : Handle) (dp : Point) (src : Handle)
    (sr : Rectangle) (op : Op) : List Entry × Option Error :=
  match o.CreateCompatibleDC with
  | .error e => ([(.CreateCompatibleDC dc, some e)], some (.native e))
  | .ok memdc =>
    let body : List Entry × Option Error :=
      match o.SelectObject with
      | .error e => ([(.SelectObject memdc src, some e)], some (.native e))
      | .ok prev =>
        let sdx := int32 sr.Dx
        let sdy := int32 sr.Dy
        let sw : List Entry × Option Error :=
          if op = draw.Src then
            ([(.BitBlt dc (int32 dp.X) (int32 dp.Y) sdx sdy memdc (int32 sr.Min.X)
                (int32 sr.Min.Y) SRCCOPY, o.BitBlt)], toError o.BitBlt)
          else if op = draw.Over then
            ([(.AlphaBlend dc (int32 dp.X) (int32 dp.Y) sdx sdy memdc 0 0 sdx sdy
                blendOverFunc, o.AlphaBlend)], toError o.AlphaBlend)
          else
            ([], some (.invalidOp op))
        -- deferred: _, err2 := _SelectObject(memdc, prev); if retErr == nil { retErr = err2 }
        let err2 := errOf o.SelectRestore
        let retErr := if sw.2 = none then toError err2 else sw.2
        ((.SelectObject memdc src, none) :: sw.1 ++ [(.SelectObject memdc prev, err2)],
         retErr)
    -- deferred: _DeleteDC(memdc)
    ((.CreateCompatibleDC dc, none) :: body.1 ++ [(.DeleteDC memdc, o.DeleteDC)], body.2)

/-- The handler `fillSrc`; `r` is the `_RECT` that `lParam` points to. The
second component is the value the handler panics with, if it does. -/
def fillSrc (o : Outcomes) (hwnd : Handle) (_uMsg : Nat) (wParam : Nat) (r : RECT) :
    List Entry × Option Error :=
  match o.GetDC with
  | .error e => ([(.GetDC hwnd, some e)], some (.native e))
  | .ok dc =>
    let color := uint32 wParam
    let cr := byte (color >>> 16)
    let cg := byte (color >>> 8)
    let cb := byte color
    let color := RGB cr cg cb
    let body : List Entry × Option Error :=
      match o.CreateSolidBrush with
      | .error e => ([(.CreateSolidBrush color, some e)], some (.native e))
      | .ok brush =>
        -- deferred: _DeleteObject(brush)
        ([(.CreateSolidBrush color, none), (.FillRect dc r brush, o.FillRect),
          (.DeleteObject brush, o.DeleteObject)], toError o.FillRect)
    -- deferred: win32.ReleaseDC(hwnd, dc)
    ((.GetDC hwnd, none) :: (.RGB cr cg cb, none) :: body.1
      ++ [(.ReleaseDC hwnd dc, o.ReleaseDC)], body.2)

/-! ## Window object (`window.go`) -/

/-- The struct `upload`; `src` is a `*bufferImpl`, `none` being the nil pointer. -/
structure upload where
  dp : Point
  src : Option bufferImpl
  sr : Rectangle
  deriving DecidableEq, Repr

/-- The zero value of `upload`, which a Go map lookup yields for a missing key. -/
def upload.zero : upload :=
  { dp := ⟨0, 0⟩, src := none, sr := ⟨⟨0, 0⟩, ⟨0, 0⟩⟩ }

/-- The package variables `uploads` and `uploadID` (guarded by `uploadsMu`). -/
structure Registry where
  uploads : Nat → Option upload
  uploadID : Nat

/-- The registry at program start: `uploads = map[uintptr]upload{}`, `uploadID = 0`. -/
def Registry.init : Registry :=
  { uploads := fun _ => none, uploadID := 0 }

/-- The method `(*windowImpl).Upload`: the registry after the call, the calls
made, and the panic value when the type assertion `src.(*bufferImpl)` fails
(after `uploadID++`, before the map store). -/
def windowImpl.Upload {S : Type} (g : Registry) (w : windowImpl S) (dp : Point)
    (src : Buffer) (sr : Rectangle) : Registry × List Entry × Option Error :=
  let uploadID := uintptr (g.uploadID + 1)
  let id := uploadID
  match src with
  | .impl b =>
    let u : upload := { dp := dp, src := b, sr := sr }
    ({ uploads := fun k => if k = id then some u else g.uploads k, uploadID := uploadID },
     [(.SendMessage w.hwnd .msgUpload id .zero, none)], none)
  | _ => ({ g with uploadID := uploadID }, [], some .typeAssertion)

/-- What a run of `handleUpload` leaves behind: the registry, the value `u`
it looked up, the calls made and the panic value, if any. -/
structure Handled where
  registry : Registry
  u : upload
  log : List Entry
  panic : Option Error

/-- The handler `handleUpload`. The hook `preUpload` is outside this fragment:
it synchronises on the fields of the buffer, so on a nil `u.src` (the zero
value read for a missing id) the run panics inside `preUpload`, before
`postUpload` is deferred; only the deferred `ReleaseDC` still runs. -/
def handleUpload (o : Outcomes) (g : Registry) (hwnd : Handle) (_uMsg : Nat)
    (wParam : Nat) (_lParam : LParam) : Handled :=
  let id := wParam
  let u := (g.uploads id).getD upload.zero
  let g1 : Registry := { g with uploads := fun k => if k = id then none else g.uploads k }
  match o.GetDC with
  | .error e => { registry := g1, u := u, log := [(.GetDC hwnd, some e)],
                  panic := some (.native e) }
  | .ok dc =>
    match u.src with
    | none =>
      -- deferred: win32.ReleaseDC(hwnd, dc)
      { registry := g1, u := u,
        log := [(.GetDC hwnd, none), (.preUpload none, none),
                (.ReleaseDC hwnd dc, o.ReleaseDC)],
        panic := some .nilDeref }
    | some b =>
      let r := copyBitmapToDC o dc u.dp b.hbitmap u.sr draw.Src
      -- deferred: u.src.postUpload(), then win32.ReleaseDC(hwnd, dc)
      { registry := g1, u := u,
        log := (.GetDC hwnd, none) :: (.preUpload (some b), none) :: r.1
          ++ [(.postUpload (some b), none), (.ReleaseDC hwnd dc, o.ReleaseDC)],
        panic := r.2 }

/-- The four channels returned by the `RGBA()` method of a `color.Color`. -/
structure Color where
  r : Nat
  g : Nat
  b : Nat
  a : Nat
  deriving DecidableEq, Repr

/-- The method `(*windowImpl).Fill`. -/
def windowImpl.Fill {S : Type} (w : windowImpl S) (dr : Rectangle) (src : Color)
    (op : Op) : List Entry :=
  let rect : RECT :=
    { Left := int32 dr.Min.X, Top := int32 dr.Min.Y,
      Right := int32 dr.Max.X, Bottom := int32 dr.Max.Y }
  let r := src.r >>> 8
  let g := src.g >>> 8
  let b := src.b >>> 8
  let a := src.a >>> 8
  let color := uint32 ((a <<< 24) ||| (r <<< 16) ||| (g <<< 8) ||| b)
  let msg := if op = draw.Src then Msg.msgFillSrc else Msg.msgFillOver
  [(.SendMessage w.hwnd msg (uintptr color) (.rect rect), none)]

/-- The method `(*windowImpl).Copy`: the calls made and the panic value when
`src.(*textureImpl).bitmap` cannot be read. -/
def windowImpl.Copy {S : Type} (w : windowImpl S) (dp : Point) (src : Texture)
    (sr : Rectangle) (op : Op) (opts : DrawOptions) : List Entry × Option Error :=
  if op ≠ draw.Src ∧ op ≠ draw.Over then
    ([(.drawerCopy w.hwnd dp src sr op opts, none)], none)
  else
    match src with
    | .impl (some t) =>
      let p : handleCopyParams := { dp := dp, src := t.bitmap, sr := sr, op := op }
      ([(.SendMessage w.hwnd .msgCopy 0 (.copyParams p), none)], none)
    | .impl none => ([], some .nilDeref)
    | _ => ([], some .typeAssertion)

/-- The handler `handleCopy`; `p` is the `handleCopyParams` that `lParam`
points to. The second component is the value the handler panics with, if any. -/
def handleCopy (o : Outcomes) (hwnd : Handle) (_uMsg : Nat) (_wParam : Nat)
    (p : handleCopyParams) : List Entry × Option Error :=
  match o.GetDC with
  | .error e => ([(.GetDC hwnd, some e)], some (.native e))
  | .ok dc =>
    let r := copyBitmapToDC o dc p.dp p.src p.sr p.op
    -- deferred: win32.ReleaseDC(hwnd, dc)
    ((.GetDC hwnd, none) :: r.1 ++ [(.ReleaseDC hwnd dc, o.ReleaseDC)], r.2)

/-! ## Event routing (`window.go`) -/

/-- The function `lifecycleEvent` (`toStage` is the parameter `to`). When the
handle has no window object, `w` is nil and reading `w.lifecycleStage` panics. -/
def lifecycleEvent {S : Type} (theScreen : screenImpl S) (hwnd : Handle) (toStage : Stage) :
    Except Error (screenImpl S) :=
  match theScreen.windows hwnd with
  | none => .error .nilDeref
  | some w =>
    if w.lifecycleStage = toStage then
      .ok theScreen
    else
      let w1 := w.Send (.lifecycle w.lifecycleStage toStage)
      let w2 := { w1 with lifecycleStage := toStage }
      .ok (theScreen.set hwnd w2)

/-- The function `sizeEvent`. Go's `!=` on `size.Event` is the `BEq` instance
of `S`, about which nothing is assumed. When the handle has no window object,
`w` is nil and `w.Send` panics. -/
def sizeEvent {S : Type} [BEq S] (theScreen : screenImpl S) (hwnd : Handle) (e : S) :
    Except Error (screenImpl S) :=
  match theScreen.windows hwnd with
  | none => .error .nilDeref
  | some w =>
    let w1 := w.Send (.size e)
    if e != w1.sz then
      let w2 := { w1 with sz := e }
      let w3 := w2.Send .paint
      .ok (theScreen.set hwnd w3)
    else
      .ok (theScreen.set hwnd w1)

/-! ## Event routing: contracts -/

/-- A window with handle 7, an empty queue, recorded size 3 and stage 1. -/
def sampleWindow : windowImpl Nat :=
  { hwnd := 7, Queue := [], sz := 3, lifecycleStage := 1 }

/-- A screen whose only window is `sampleWindow`. -/
def sampleScreen : screenImpl Nat :=
  { windows := fun h => if h = 7 then some sampleWindow else none }

/-- C1: for the window `w` registered under `hwnd` and every size event `e`,
if `e` equals the recorded size `w.sz` then `sizeEvent` pushes exactly one
event, `e`, and leaves `w.sz` (and everything else) unchanged; if `e` differs
from `w.sz` it pushes exactly `e` and then the empty paint event, and records
`e` as the new `w.sz`. -/
theorem sizeEvent_contract {S : Type} [BEq S] (theScreen : screenImpl S) (hwnd : Handle)
    (w : windowImpl S) (e : S) (hw : theScreen.windows hwnd = some w) :
    ((e == w.sz) = true →
      sizeEvent theScreen hwnd e
        = .ok (theScreen.set hwnd { w with Queue := w.Queue ++ [Event.size e] })) ∧
    ((e == w.sz) = false →
      sizeEvent theScreen hwnd e
        = .ok (theScreen.set hwnd
            { w with Queue := w.Queue ++ [Event.size e, Event.paint], sz := e })) := by
  constructor
  · intro h
    simp [sizeEvent, hw, windowImpl.Send, bne, h]
  · intro h
    simp [sizeEvent, hw, windowImpl.Send, bne, h]

/-- Witness of C1 on `sampleScreen`: the recorded size 3 arrives again (one
event), and a new size 4 arrives (size, then paint). -/
theorem sizeEvent_contract_witness :
    sampleScreen.windows 7 = some sampleWindow ∧
    sizeEvent sampleScreen 7 3
      = .ok (sampleScreen.set 7
          { sampleWindow with Queue := sampleWindow.Queue ++ [Event.size 3] }) ∧
    sizeEvent sampleScreen 7 4
      = .ok (sampleScreen.set 7
          { sampleWindow with
            Queue := sampleWindow.Queue ++ [Event.size 4, Event.paint], sz := 4 }) :=
  ⟨rfl, (sizeEvent_contract sampleScreen 7 sampleWindow 3 rfl).1 rfl,
    (sizeEvent_contract sampleScreen 7 sampleWindow 4 rfl).2 rfl⟩

/-- C2: for the window `w` registered under `hwnd` and every target stage, if
the target equals the recorded stage then `lifecycleEvent` pushes nothing and
changes nothing; otherwise it pushes exactly one event, from the stage recorded
before the call to the target, and records the target as the new stage, so the
pushed event has `From ≠ To`. -/
theorem lifecycleEvent_contract {S : Type} (theScreen : screenImpl S) (hwnd : Handle)
    (w : windowImpl S) (toStage : Stage) (hw : theScreen.windows hwnd = some w) :
    (w.lifecycleStage = toStage → lifecycleEvent theScreen hwnd toStage = .ok theScreen) ∧
    (w.lifecycleStage ≠ toStage →
      lifecycleEvent theScreen hwnd toStage
        = .ok (theScreen.set hwnd
            { w with Queue := w.Queue ++ [Event.lifecycle w.lifecycleStage toStage],
                     lifecycleStage := toStage })) := by
  constructor
  · intro h
    simp [lifecycleEvent, hw, h]
  · intro h
    simp [lifecycleEvent, hw, h, windowImpl.Send]

/-- Witness of C2 on `sampleScreen`, whose window is at stage 1: a
transition to stage 1 delivers nothing, a transition to stage 2 delivers the
pair (1, 2). -/
theorem lifecycleEvent_contract_witness :
    sampleScreen.windows 7 = some sampleWindow ∧
    lifecycleEvent sampleScreen 7 1 = .ok sampleScreen ∧
    lifecycleEvent sampleScreen 7 2
      = .ok (sampleScreen.set 7
          { sampleWindow with
            Queue := sampleWindow.Queue ++ [Event.lifecycle sampleWindow.lifecycleStage 2],
            lifecycleStage := 2 }) :=
  ⟨rfl, (lifecycleEvent_contract sampleScreen 7 sampleWindow 1 rfl).1 rfl,
    (lifecycleEvent_contract sampleScreen 7 sampleWindow 2 rfl).2 (by decide)⟩

/-! ## Copy: routing by operator -/

/-- With `draw.Src` or `draw.Over`, the error `copyBitmapToDC` returns is nil or
comes from a native call. -/
theorem copyBitmapToDC_supported_err (o : Outcomes) (dc : Handle) (dp : Point)
    (src : Handle) (sr : Rectangle) (op : Op) (hop : op = draw.Src ∨ op = draw.Over) :
    (copyBitmapToDC o dc dp src sr op).2 = none ∨
      ∃ e, (copyBitmapToDC o dc dp src sr op).2 = some (Error.native e) := by
  unfold copyBitmapToDC
  rcases o with ⟨gd, rd, cdc, so, bb, ab, sr2, dd, csb, fr, dob⟩
  rcases hop with h | h <;> subst h <;>
    cases cdc <;> cases so <;> cases bb <;> cases ab <;> cases sr2 <;>
      simp [toError, errOf, draw.Src, draw.Over]

/-- Sample window, texture and copy arguments used by the witnesses below. -/
def sampleCopyParams : handleCopyParams :=
  { dp := ⟨10, 20⟩, src := 99, sr := ⟨⟨1, 2⟩, ⟨5, 8⟩⟩, op := draw.Over }

/-- C3, as stated, fails for a `src` that does not hold a non-nil
`*textureImpl`: with `draw.Src` and the nil interface, a nil `*textureImpl` or a
texture of another type, `Copy` panics at `src.(*textureImpl).bitmap` and
sends no message. -/
theorem Copy_foreign_texture_counterexample :
    sampleWindow.Copy ⟨10, 20⟩ Texture.nil ⟨⟨1, 2⟩, ⟨5, 8⟩⟩ draw.Src none
      = ([], some Error.typeAssertion) ∧
    sampleWindow.Copy ⟨10, 20⟩ (Texture.impl none) ⟨⟨1, 2⟩, ⟨5, 8⟩⟩ draw.Src none
      = ([], some Error.nilDeref) ∧
    sampleWindow.Copy ⟨10, 20⟩ (Texture.foreign 1) ⟨⟨1, 2⟩, ⟨5, 8⟩⟩ draw.Over none
      = ([], some Error.typeAssertion) := by
  decide

/-- C3, amended: `Copy` routes by operator. With `draw.Src` or `draw.Over` and
a `src` that holds a non-nil `*textureImpl`, it sends exactly one `msgCopy` message whose parameter block is
the destination point, the texture's bitmap handle, the source rectangle and the
operator, and makes no other call; with any other operator it calls
`drawer.Copy` exactly once with the same arguments and sends no message. Hence
for every `msgCopy` message that `Copy` sends and every outcome of the native
calls, neither `copyBitmapToDC` on its parameter block returns nor `handleCopy`
panics with an invalid draw operation error. -/
theorem Copy_routing {S : Type} (w : windowImpl S) (dp : Point) (src : Texture)
    (sr : Rectangle) (op : Op) (opts : DrawOptions) :
    ((op = draw.Src ∨ op = draw.Over) → ∀ t : textureImpl, src = Texture.impl (some t) →
      w.Copy dp src sr op opts
        = ([(Call.SendMessage w.hwnd Msg.msgCopy 0
              (LParam.copyParams { dp := dp, src := t.bitmap, sr := sr, op := op }), none)],
           none)) ∧
    ((op ≠ draw.Src ∧ op ≠ draw.Over) →
      w.Copy dp src sr op opts = ([(Call.drawerCopy w.hwnd dp src sr op opts, none)], none)) ∧
    (∀ (hwnd : Handle) (wParam : Nat) (p : handleCopyParams) (r : Option Nat),
      (Call.SendMessage hwnd Msg.msgCopy wParam (LParam.copyParams p), r)
          ∈ (w.Copy dp src sr op opts).1 →
      ∀ (o : Outcomes) (dc : Handle) (uMsg : Nat) (bad : Op),
        (copyBitmapToDC o dc p.dp p.src p.sr p.op).2 ≠ some (Error.invalidOp bad) ∧
        (handleCopy o hwnd uMsg wParam p).2 ≠ some (Error.invalidOp bad)) := by
  refine ⟨?_, ?_, ?_⟩
  · rintro hop t rfl
    have : ¬ (op ≠ draw.Src ∧ op ≠ draw.Over) := by
      rcases hop with h | h <;> simp [h]
    simp [windowImpl.Copy, this]
  · intro hop
    simp [windowImpl.Copy, hop]
  · intro hwnd wParam p r hmem o dc uMsg bad
    have hop : p.op = draw.Src ∨ p.op = draw.Over := by
      unfold windowImpl.Copy at hmem
      split at hmem
      · simp at hmem
      · rename_i hn
        have hop : op = draw.Src ∨ op = draw.Over := by
          by_cases h1 : op = draw.Src
          · exact Or.inl h1
          · by_cases h2 : op = draw.Over
            · exact Or.inr h2
            · exact absurd ⟨h1, h2⟩ hn
        split at hmem
        · simp at hmem
          rcases hmem with ⟨⟨_, _, hp⟩, _⟩
          rw [hp]
          exact hop
        · simp at hmem
        · simp at hmem
    have key : ∀ dc2, (copyBitmapToDC o dc2 p.dp p.src p.sr p.op).2 ≠ some (Error.invalidOp bad) := by
      intro dc2 hbad
      rcases copyBitmapToDC_supported_err o dc2 p.dp p.src p.sr p.op hop with h | ⟨e, h⟩
      · rw [h] at hbad; cases hbad
      · rw [h] at hbad; cases hbad
    refine ⟨key dc, ?_⟩
    unfold handleCopy
    cases hg : o.GetDC with
    | error e => simp
    | ok dc2 => simpa using key dc2

/-- Witness of C3: `draw.Over` with a texture whose bitmap handle is 99 is sent
as one `msgCopy` message; operator 2 goes to `drawer.Copy`; and the handler
reached with the sent block does not fail with an invalid operation. -/
theorem Copy_routing_witness :
    sampleWindow.Copy ⟨10, 20⟩ (Texture.impl (some ⟨99⟩)) ⟨⟨1, 2⟩, ⟨5, 8⟩⟩ draw.Over none
      = ([(Call.SendMessage 7 Msg.msgCopy 0 (LParam.copyParams sampleCopyParams), none)],
         none) ∧
    sampleWindow.Copy ⟨10, 20⟩ Texture.nil ⟨⟨1, 2⟩, ⟨5, 8⟩⟩ 2 none
      = ([(Call.drawerCopy 7 ⟨10, 20⟩ Texture.nil ⟨⟨1, 2⟩, ⟨5, 8⟩⟩ 2 none, none)], none) ∧
    (∀ (o : Outcomes) (dc : Handle) (uMsg : Nat) (bad : Op),
      (copyBitmapToDC o dc sampleCopyParams.dp sampleCopyParams.src sampleCopyParams.sr
          sampleCopyParams.op).2 ≠ some (Error.invalidOp bad) ∧
      (handleCopy o 7 uMsg 0 sampleCopyParams).2 ≠ some (Error.invalidOp bad)) :=
  ⟨(Copy_routing sampleWindow ⟨10, 20⟩ (Texture.impl (some ⟨99⟩)) ⟨⟨1, 2⟩, ⟨5, 8⟩⟩
      draw.Over none).1 (Or.inr rfl) ⟨99⟩ rfl,
   (Copy_routing sampleWindow ⟨10, 20⟩ Texture.nil ⟨⟨1, 2⟩, ⟨5, 8⟩⟩ 2 none).2.1
      (by decide),
   (Copy_routing sampleWindow ⟨10, 20⟩ (Texture.impl (some ⟨99⟩)) ⟨⟨1, 2⟩, ⟨5, 8⟩⟩
      draw.Over none).2.2 7 0 sampleCopyParams none (by decide)⟩

/-! ## Fill: colour packing and decoding -/

/-- The packed colour in the specification's words: high byte alpha, then red,
green and blue, each channel reduced to its high byte. -/
def packedColour (c : Color) : Nat :=
  ((c.a >>> 8) <<< 24) ||| ((c.r >>> 8) <<< 16) ||| ((c.g >>> 8) <<< 8) ||| (c.b >>> 8)

/-- The argument triples of the `_RGB` calls of a log, in order. -/
def rgbCalls (log : List Entry) : List (Nat × Nat × Nat) :=
  log.filterMap fun en =>
    match en.1 with
    | .RGB r g b => some (r, g, b)
    | _ => none

/-- The colours given to `_CreateSolidBrush` in a log, in order. -/
def brushColours (log : List Entry) : List Nat :=
  log.filterMap fun en =>
    match en.1 with
    | .CreateSolidBrush c => some c
    | _ => none

/-- Four bytes placed at bit offsets 24, 16, 8 and 0 do not overlap: their
bitwise or is their weighted sum. -/
theorem or_bytes (a r g b : Nat) (hr : r < 256) (hg : g < 256) (hb : b < 256) :
    (a <<< 24) ||| (r <<< 16) ||| (g <<< 8) ||| b
      = a * 2 ^ 24 + r * 2 ^ 16 + g * 2 ^ 8 + b := by
  have h1 : 2 ^ 8 * g + b = 2 ^ 8 * g ||| b := Nat.mul_add_lt_is_or (by omega) g
  have h2 : 2 ^ 16 * r + (2 ^ 8 * g + b) = 2 ^ 16 * r ||| (2 ^ 8 * g + b) :=
    Nat.mul_add_lt_is_or (by omega) r
  have h3 : 2 ^ 24 * a + (2 ^ 16 * r + (2 ^ 8 * g + b))
      = 2 ^ 24 * a ||| (2 ^ 16 * r + (2 ^ 8 * g + b)) :=
    Nat.mul_add_lt_is_or (by omega) a
  rw [Nat.or_assoc, Nat.or_assoc, Nat.shiftLeft_eq, Nat.shiftLeft_eq, Nat.shiftLeft_eq,
    Nat.mul_comm a, Nat.mul_comm r, Nat.mul_comm g, ← h1, ← h2, ← h3]
  omega

/-- A 16-bit channel shifted right by 8 is a byte. -/
theorem channel_high_byte (x : Nat) (hx : x ≤ 0xffff) : x >>> 8 < 256 := by
  rw [Nat.shiftRight_eq_div_pow]
  omega

/-- The packed colour of 16-bit channels as a weighted sum of its four bytes. -/
theorem packedColour_eq_sum (c : Color) (hr : c.r ≤ 0xffff) (hg : c.g ≤ 0xffff)
    (hb : c.b ≤ 0xffff) :
    packedColour c
      = (c.a >>> 8) * 2 ^ 24 + (c.r >>> 8) * 2 ^ 16 + (c.g >>> 8) * 2 ^ 8 + (c.b >>> 8) :=
  or_bytes _ _ _ _ (channel_high_byte _ hr) (channel_high_byte _ hg) (channel_high_byte _ hb)

/-- What `fillSrc` decodes from the packed colour of 16-bit channels. -/
theorem fillSrc_decode (c : Color) (hr : c.r ≤ 0xffff) (hg : c.g ≤ 0xffff)
    (hb : c.b ≤ 0xffff) (ha : c.a ≤ 0xffff) :
    byte (uint32 (packedColour c) >>> 16) = c.r >>> 8 ∧
    byte (uint32 (packedColour c) >>> 8) = c.g >>> 8 ∧
    byte (uint32 (packedColour c)) = c.b >>> 8 := by
  have h := packedColour_eq_sum c hr hg hb
  have r8 := channel_high_byte _ hr
  have g8 := channel_high_byte _ hg
  have b8 := channel_high_byte _ hb
  have a8 := channel_high_byte _ ha
  simp only [byte, uint32, Nat.shiftRight_eq_div_pow] at *
  norm_num at *
  omega

/-- A sample colour: opaque orange with 16-bit channels. -/
def sampleColour : Color := { r := 0xffff, g := 0x8080, b := 0x0000, a := 0xffff }

/-- C4: for a colour whose four `RGBA()` channels are at most `0xffff`, `Fill`
sends exactly one message, `msgFillSrc` when the operator is `draw.Src` and
`msgFillOver` otherwise, whose `wParam` is the packed colour
`(a>>8)<<24 | (r>>8)<<16 | (g>>8)<<8 | (b>>8)`; that value fits 32 bits and its
four bytes, from the top, are the alpha, red, green and blue high bytes; and
`fillSrc` on that `wParam` calls `_RGB` only with `(r>>8, g>>8, b>>8)` (once
when the device context is obtained), creates its brush only from that colour,
and behaves the same whatever the alpha channel is. -/
theorem Fill_colour_packing {S : Type} (w : windowImpl S) (dr : Rectangle) (c : Color)
    (op : Op) (hr : c.r ≤ 0xffff) (hg : c.g ≤ 0xffff) (hb : c.b ≤ 0xffff)
    (ha : c.a ≤ 0xffff) :
    w.Fill dr c op
      = [(Call.SendMessage w.hwnd (if op = draw.Src then Msg.msgFillSrc else Msg.msgFillOver)
            (packedColour c)
            (LParam.rect { Left := int32 dr.Min.X, Top := int32 dr.Min.Y,
                           Right := int32 dr.Max.X, Bottom := int32 dr.Max.Y }), none)] ∧
    packedColour c < 2 ^ 32 ∧
    packedColour c / 2 ^ 24 = c.a >>> 8 ∧
    packedColour c / 2 ^ 16 % 2 ^ 8 = c.r >>> 8 ∧
    packedColour c / 2 ^ 8 % 2 ^ 8 = c.g >>> 8 ∧
    packedColour c % 2 ^ 8 = c.b >>> 8 ∧
    (∀ (o : Outcomes) (hwnd : Handle) (uMsg : Nat) (r : RECT),
      rgbCalls (fillSrc o hwnd uMsg (packedColour c) r).1
        = (if errOf o.GetDC = none then [(c.r >>> 8, c.g >>> 8, c.b >>> 8)] else []) ∧
      (∀ col ∈ brushColours (fillSrc o hwnd uMsg (packedColour c) r).1,
        col = RGB (c.r >>> 8) (c.g >>> 8) (c.b >>> 8)) ∧
      (∀ a2 : Nat, a2 ≤ 0xffff →
        fillSrc o hwnd uMsg (packedColour { c with a := a2 }) r
          = fillSrc o hwnd uMsg (packedColour c) r)) := by
  have hsum := packedColour_eq_sum c hr hg hb
  have r8 := channel_high_byte _ hr
  have g8 := channel_high_byte _ hg
  have b8 := channel_high_byte _ hb
  have a8 := channel_high_byte _ ha
  have hlt : packedColour c < 2 ^ 32 := by
    rw [hsum]; norm_num; omega
  obtain ⟨d1, d2, d3⟩ := fillSrc_decode c hr hg hb ha
  refine ⟨?_, hlt, ?_, ?_, ?_, ?_, ?_⟩
  · have h64 : packedColour c % 2 ^ 64 = packedColour c :=
      Nat.mod_eq_of_lt (lt_trans hlt (by norm_num))
    have h32 : packedColour c % 2 ^ 32 = packedColour c := Nat.mod_eq_of_lt hlt
    norm_num at h32 h64 hlt
    by_cases h : op = draw.Src <;>
      simp [windowImpl.Fill, uintptr, uint32, intBits, h, ← packedColour.eq_1] <;>
      omega
  · rw [hsum]; norm_num; omega
  · rw [hsum]; norm_num; omega
  · rw [hsum]; norm_num; omega
  · rw [hsum]; norm_num; omega
  · intro o hwnd uMsg r
    refine ⟨?_, ?_, ?_⟩
    · unfold fillSrc
      cases hg1 : o.GetDC <;> cases hb1 : o.CreateSolidBrush <;>
        simp [rgbCalls, errOf, d1, d2, d3]
    · unfold fillSrc
      cases hg1 : o.GetDC <;> cases hb1 : o.CreateSolidBrush <;>
        simp [brushColours, d1, d2, d3]
    · intro a2 ha2
      obtain ⟨e1, e2, e3⟩ := fillSrc_decode { c with a := a2 } hr hg hb ha2
      unfold fillSrc
      simp only [d1, d2, d3, e1, e2, e3]

/-- Witness of C4: opaque orange filled with `draw.Src` over the rectangle
(0,0)-(4,4) is one `msgFillSrc` message with `wParam = 0xffff8000`. -/
theorem Fill_colour_packing_witness :
    (sampleColour.r ≤ 0xffff ∧ sampleColour.g ≤ 0xffff ∧ sampleColour.b ≤ 0xffff ∧
      sampleColour.a ≤ 0xffff) ∧
    packedColour sampleColour = 0xffff8000 ∧
    sampleWindow.Fill ⟨⟨0, 0⟩, ⟨4, 4⟩⟩ sampleColour draw.Src
      = [(Call.SendMessage 7 Msg.msgFillSrc 0xffff8000 (LParam.rect ⟨0, 0, 4, 4⟩), none)] :=
  ⟨by decide, by decide,
    (Fill_colour_packing sampleWindow ⟨⟨0, 0⟩, ⟨4, 4⟩⟩ sampleColour draw.Src
      (by decide) (by decide) (by decide) (by decide)).1⟩

/-! ## Pending-upload registry: fresh ids -/

/-- One step on the registry: a call of `Upload` on a window, or a run of
`handleUpload` for some `wParam`. -/
inductive Step (S : Type) where
  | upload (w : windowImpl S) (dp : Point) (src : Buffer) (sr : Rectangle)
  | handle (o : Outcomes) (hwnd : Handle) (wParam : Nat)

/-- The registry and the calls made after a sequence of steps, from registry
`g` and log `log`. An `Upload` that panics ends the run: it leaves `uploadsMu`
locked, so no later step gets to the registry. -/
def run {S : Type} (g : Registry) (log : List Entry) : List (Step S) → Registry × List Entry
  | [] => (g, log)
  | .upload w dp src sr :: rest =>
    let r := w.Upload g dp src sr
    match r.2.2 with
    | none => run r.1 (log ++ r.2.1) rest
    | some _ => (r.1, log ++ r.2.1)
  | .handle o hwnd wParam :: rest =>
    let h := handleUpload o g hwnd 0 wParam .zero
    run h.registry (log ++ h.log) rest

/-- Whether the counter `uploadID` stays below `2 ^ intBits` (does not wrap
around) during the run of `run`. -/
def noWrap {S : Type} (g : Registry) : List (Step S) → Bool
  | [] => true
  | .upload w dp src sr :: rest =>
    let r := w.Upload g dp src sr
    decide (g.uploadID + 1 < 2 ^ intBits) &&
      (match r.2.2 with
       | none => noWrap r.1 rest
       | some _ => true)
  | .handle o hwnd wParam :: rest =>
    noWrap (handleUpload o g hwnd 0 wParam .zero).registry rest

/-- The ids sent with `msgUpload` messages in a log, in order. -/
def uploadIds (log : List Entry) : List Nat :=
  log.filterMap fun en =>
    match en.1 with
    | .SendMessage _ .msgUpload id _ => some id
    | _ => none

/-- The invariant: every pending key and every id sent so far is at most the
counter. -/
def Fresh (g : Registry) (log : List Entry) : Prop :=
  (∀ k u, g.uploads k = some u → k ≤ g.uploadID) ∧ (∀ i ∈ uploadIds log, i ≤ g.uploadID)

theorem uploadIds_append (l1 l2 : List Entry) :
    uploadIds (l1 ++ l2) = uploadIds l1 ++ uploadIds l2 := by
  simp [uploadIds, List.filterMap_append]

/-- The log of `handleUpload` holds no `msgUpload` message. -/
theorem uploadIds_handleUpload (o : Outcomes) (g : Registry) (hwnd : Handle) (uMsg : Nat)
    (wParam : Nat) (lParam : LParam) :
    uploadIds (handleUpload o g hwnd uMsg wParam lParam).log = [] := by
  unfold handleUpload copyBitmapToDC
  rcases o with ⟨gd, rd, cdc, so, bb, ab, sr2, dd, csb, fr, dob⟩
  cases gd <;> cases hsrc : ((g.uploads wParam).getD upload.zero).src <;>
    cases cdc <;> cases so <;> simp [uploadIds, hsrc, draw.Src, draw.Over]

/-- The registry step of `handleUpload`: the entry for `wParam` is removed, the
rest of the map and the counter are kept, whatever the native calls do. -/
theorem handleUpload_registry (o : Outcomes) (g : Registry) (hwnd : Handle) (uMsg : Nat)
    (wParam : Nat) (lParam : LParam) :
    (handleUpload o g hwnd uMsg wParam lParam).registry
      = { uploads := fun k => if k = wParam then none else g.uploads k,
          uploadID := g.uploadID } ∧
    (handleUpload o g hwnd uMsg wParam lParam).u = (g.uploads wParam).getD upload.zero := by
  unfold handleUpload
  cases o.GetDC <;> cases hsrc : ((g.uploads wParam).getD upload.zero).src <;> simp [hsrc]

/-- One step keeps the invariant when the counter does not wrap. -/
theorem Fresh_run {S : Type} (steps : List (Step S)) :
    ∀ (g : Registry) (log : List Entry), Fresh g log → noWrap g steps = true →
      Fresh (run g log steps).1 (run g log steps).2 := by
  induction steps with
  | nil => intro g log h _; simpa [run] using h
  | cons st rest ih =>
    intro g log h hw
    cases st with
    | upload w dp src sr =>
      simp only [noWrap, Bool.and_eq_true, decide_eq_true_eq] at hw
      obtain ⟨hlt, hrest⟩ := hw
      have hid : uintptr (g.uploadID + 1) = g.uploadID + 1 := Nat.mod_eq_of_lt hlt
      cases src with
      | impl b =>
        simp only [windowImpl.Upload, hid] at hrest
        simp only [run, windowImpl.Upload, hid]
        apply ih _ _ _ hrest
        constructor
        · intro k u hk
          show k ≤ g.uploadID + 1
          simp only at hk
          split at hk
          · omega
          · have := h.1 k u hk
            omega
        · intro i hi
          show i ≤ g.uploadID + 1
          rw [uploadIds_append] at hi
          simp only [List.mem_append] at hi
          rcases hi with hi | hi
          · have := h.2 i hi
            omega
          · simp [uploadIds, hid] at hi
            omega
      | nil =>
        simp only [run, windowImpl.Upload, hid, List.append_nil]
        exact ⟨fun k u hk => Nat.le_succ_of_le (h.1 k u hk),
          fun i hi => Nat.le_succ_of_le (h.2 i hi)⟩
      | foreign id =>
        simp only [run, windowImpl.Upload, hid, List.append_nil]
        exact ⟨fun k u hk => Nat.le_succ_of_le (h.1 k u hk),
          fun i hi => Nat.le_succ_of_le (h.2 i hi)⟩
    | handle o hwnd wParam =>
      simp only [noWrap] at hw
      simp only [run]
      apply ih _ _ _ hw
      have hreg := (handleUpload_registry o g hwnd 0 wParam .zero).1
      constructor
      · intro k u hk
        rw [hreg] at hk
        simp only at hk
        split at hk
        · cases hk
        · rw [hreg]
          exact h.1 k u hk
      · intro i hi
        rw [uploadIds_append, uploadIds_handleUpload, List.append_nil] at hi
        rw [hreg]
        exact h.2 i hi

/-- Native calls that all succeed (device context 11, memory context 12,
previously selected bitmap 13, brush 14). -/
def allSucceed : Outcomes :=
  { GetDC := .ok 11, ReleaseDC := none, CreateCompatibleDC := .ok 12, SelectObject := .ok 13,
    BitBlt := none, AlphaBlend := none, SelectRestore := .ok 0, DeleteDC := none,
    CreateSolidBrush := .ok 14, FillRect := none, DeleteObject := none }

/-- Two uploads on `sampleWindow`, then the handler run for the first id. -/
def sampleSteps : List (Step Nat) :=
  [.upload sampleWindow ⟨0, 0⟩ (.impl (some ⟨21⟩)) ⟨⟨0, 0⟩, ⟨2, 2⟩⟩,
   .upload sampleWindow ⟨5, 5⟩ (.impl (some ⟨22⟩)) ⟨⟨0, 0⟩, ⟨3, 3⟩⟩,
   .handle allSucceed 7 1]

/-- C5: in every registry state reached from the initial one (empty map,
counter 0) by `Upload` calls and `handleUpload` runs during which the counter
did not wrap around, every key of the map is at most `uploadID`; hence, if the
next increment does not wrap either, the next `Upload` sends the id
`uploadID + 1`, which is strictly greater than every id sent before, is not a
key of the map, and whose registration keeps every pending entry. -/
theorem upload_id_fresh {S : Type} (steps : List (Step S))
    (hw : noWrap Registry.init steps = true) :
    (∀ k u, (run Registry.init [] steps).1.uploads k = some u →
      k ≤ (run Registry.init [] steps).1.uploadID) ∧
    (∀ (w : windowImpl S) (dp : Point) (b : Option bufferImpl) (sr : Rectangle),
      (run Registry.init [] steps).1.uploadID + 1 < 2 ^ intBits →
      (w.Upload (run Registry.init [] steps).1 dp (Buffer.impl b) sr).2
        = ([(Call.SendMessage w.hwnd Msg.msgUpload
              ((run Registry.init [] steps).1.uploadID + 1) LParam.zero, none)], none) ∧
      (∀ i ∈ uploadIds (run Registry.init [] steps).2,
        i < (run Registry.init [] steps).1.uploadID + 1) ∧
      (run Registry.init [] steps).1.uploads ((run Registry.init [] steps).1.uploadID + 1)
        = none ∧
      (∀ k u, (run Registry.init [] steps).1.uploads k = some u →
        (w.Upload (run Registry.init [] steps).1 dp (Buffer.impl b) sr).1.uploads k
          = some u)) := by
  have hinit : Fresh Registry.init [] :=
    ⟨fun k u hk => by simp [Registry.init] at hk, fun i hi => by simp [uploadIds] at hi⟩
  have hf := Fresh_run steps Registry.init [] hinit hw
  generalize (run Registry.init [] steps).1 = g at hf ⊢
  generalize (run Registry.init [] steps).2 = log at hf ⊢
  refine ⟨hf.1, ?_⟩
  intro w dp b sr hlt
  have hid : uintptr (g.uploadID + 1) = g.uploadID + 1 := Nat.mod_eq_of_lt hlt
  have hnone : g.uploads (g.uploadID + 1) = none := by
    cases hk : g.uploads (g.uploadID + 1) with
    | none => rfl
    | some u =>
      have := hf.1 _ u hk
      omega
  refine ⟨by simp [windowImpl.Upload, hid], ?_, hnone, ?_⟩
  · intro i hi
    have := hf.2 i hi
    omega
  · intro k u hk
    have hne : k ≠ g.uploadID + 1 := by
      intro h
      rw [h, hnone] at hk
      cases hk
    simp [windowImpl.Upload, hid, hne, hk]

/-- Witness of C5 on `sampleSteps`: the counter stands at 2 with id 2 pending,
and the next `Upload` sends the unused id 3. -/
theorem upload_id_fresh_witness :
    noWrap Registry.init sampleSteps = true ∧
    (run Registry.init [] sampleSteps).1.uploadID = 2 ∧
    (sampleWindow.Upload (run Registry.init [] sampleSteps).1 ⟨1, 1⟩
        (Buffer.impl (some ⟨23⟩)) ⟨⟨0, 0⟩, ⟨1, 1⟩⟩).2
      = ([(Call.SendMessage 7 Msg.msgUpload 3 LParam.zero, none)], none) ∧
    (run Registry.init [] sampleSteps).1.uploads 3 = none :=
  ⟨rfl, rfl,
    ((upload_id_fresh sampleSteps rfl).2 sampleWindow ⟨1, 1⟩ (some ⟨23⟩) ⟨⟨0, 0⟩, ⟨1, 1⟩⟩
      (by decide)).1,
    ((upload_id_fresh sampleSteps rfl).2 sampleWindow ⟨1, 1⟩ (some ⟨23⟩) ⟨⟨0, 0⟩, ⟨1, 1⟩⟩
      (by decide)).2.2.1⟩

/-! ## Pending-upload registry: round trip -/

/-- The invariant behind the round trip: every pending key lies between 1 and
the counter, and the counter is a `uintptr`. -/
def Pending (g : Registry) : Prop :=
  (∀ k u, g.uploads k = some u → 1 ≤ k ∧ k ≤ g.uploadID) ∧ g.uploadID < 2 ^ intBits

/-- A run without wrap-around keeps `Pending`. -/
theorem Pending_run {S : Type} (steps : List (Step S)) :
    ∀ (g : Registry) (log : List Entry), Pending g → noWrap g steps = true →
      Pending (run g log steps).1 := by
  induction steps with
  | nil => intro g log h _; simpa [run] using h
  | cons st rest ih =>
    intro g log h hw
    cases st with
    | upload w dp src sr =>
      simp only [noWrap, Bool.and_eq_true, decide_eq_true_eq] at hw
      obtain ⟨hlt, hrest⟩ := hw
      have hid : uintptr (g.uploadID + 1) = g.uploadID + 1 := Nat.mod_eq_of_lt hlt
      cases src with
      | impl b =>
        simp only [windowImpl.Upload, hid] at hrest
        simp only [run, windowImpl.Upload, hid]
        apply ih _ _ _ hrest
        refine ⟨?_, hlt⟩
        intro k u hk
        show 1 ≤ k ∧ k ≤ g.uploadID + 1
        simp only at hk
        split at hk
        · omega
        · have := h.1 k u hk
          omega
      | nil =>
        simp only [run, windowImpl.Upload, hid, List.append_nil]
        exact ⟨fun k u hk => ⟨(h.1 k u hk).1, Nat.le_succ_of_le (h.1 k u hk).2⟩, hlt⟩
      | foreign id =>
        simp only [run, windowImpl.Upload, hid, List.append_nil]
        exact ⟨fun k u hk => ⟨(h.1 k u hk).1, Nat.le_succ_of_le (h.1 k u hk).2⟩, hlt⟩
    | handle o hwnd wParam =>
      simp only [noWrap] at hw
      simp only [run]
      apply ih _ _ _ hw
      have hreg := (handleUpload_registry o g hwnd 0 wParam .zero).1
      rw [hreg]
      refine ⟨?_, h.2⟩
      intro k u hk
      simp only at hk
      split at hk
      · cases hk
      · exact h.1 k u hk

/-- In a `Pending` registry the id that the next `Upload` takes is not pending,
also when the increment wraps around to 0. -/
theorem Pending_next_free (g : Registry) (h : Pending g) :
    g.uploads (uintptr (g.uploadID + 1)) = none := by
  cases hk : g.uploads (uintptr (g.uploadID + 1)) with
  | none => rfl
  | some u =>
    have hb := h.1 _ u hk
    have hlt := h.2
    unfold uintptr at hb
    by_cases hw : g.uploadID + 1 < 2 ^ intBits
    · rw [Nat.mod_eq_of_lt hw] at hb
      omega
    · have heq : g.uploadID + 1 = 2 ^ intBits := by omega
      rw [heq, Nat.mod_self] at hb
      omega

/-- C6, as stated, fails for a `src` that does not hold a `*bufferImpl`: on the
initial registry, `Upload` with the nil interface (or a buffer of another type)
panics at `src.(*bufferImpl)` after the increment, sends no id and registers
nothing, so the handler run for id 1 reads the zero value, not the upload
`{dp, src, sr}`. -/
theorem Upload_foreign_buffer_counterexample :
    (sampleWindow.Upload Registry.init ⟨1, 1⟩ Buffer.nil ⟨⟨0, 0⟩, ⟨1, 1⟩⟩).2
      = ([], some Error.typeAssertion) ∧
    (sampleWindow.Upload Registry.init ⟨1, 1⟩ (Buffer.foreign 1) ⟨⟨0, 0⟩, ⟨1, 1⟩⟩).2
      = ([], some Error.typeAssertion) ∧
    (sampleWindow.Upload Registry.init ⟨1, 1⟩ Buffer.nil ⟨⟨0, 0⟩, ⟨1, 1⟩⟩).1.uploadID = 1 ∧
    (sampleWindow.Upload Registry.init ⟨1, 1⟩ Buffer.nil ⟨⟨0, 0⟩, ⟨1, 1⟩⟩).1.uploads 1
      = none ∧
    (handleUpload allSucceed
        (sampleWindow.Upload Registry.init ⟨1, 1⟩ Buffer.nil ⟨⟨0, 0⟩, ⟨1, 1⟩⟩).1
        7 0 1 LParam.zero).u = upload.zero := by
  refine ⟨rfl, rfl, rfl, rfl, rfl⟩

/-- C6, amended: in every registry state reached from the initial one by
`Upload` calls and `handleUpload` runs without counter wrap-around, for every
`(dp, src, sr)` whose `src` holds a `*bufferImpl`, the registration step of
`Upload` followed by the lookup-and-remove step of `handleUpload` with the id
`Upload` sent yields exactly the upload that was registered and leaves the
`uploads` map equal to what it was before the `Upload`. And in every registry
state `g2` and for every id, after the lookup-and-remove step the map has no
entry for that id and every other entry is unchanged, and a second run with the
same id finds no pending upload (it reads the zero value) and leaves the map as
it is. -/
theorem upload_roundtrip {S : Type} (steps : List (Step S))
    (hw : noWrap Registry.init steps = true) (w : windowImpl S) (dp : Point)
    (b : Option bufferImpl) (sr : Rectangle) (o o2 : Outcomes) (hwnd uMsg : Nat)
    (lParam : LParam) (g2 : Registry) (id : Nat) :
    (w.Upload (run Registry.init [] steps).1 dp (Buffer.impl b) sr).2
      = ([(Call.SendMessage w.hwnd Msg.msgUpload
            (uintptr ((run Registry.init [] steps).1.uploadID + 1)) LParam.zero, none)],
         none) ∧
    (handleUpload o (w.Upload (run Registry.init [] steps).1 dp (Buffer.impl b) sr).1
        hwnd uMsg (uintptr ((run Registry.init [] steps).1.uploadID + 1)) lParam).u
      = { dp := dp, src := b, sr := sr } ∧
    (handleUpload o (w.Upload (run Registry.init [] steps).1 dp (Buffer.impl b) sr).1
        hwnd uMsg (uintptr ((run Registry.init [] steps).1.uploadID + 1))
        lParam).registry.uploads
      = (run Registry.init [] steps).1.uploads ∧
    (handleUpload o g2 hwnd uMsg id lParam).registry.uploads id = none ∧
    (∀ k, k ≠ id →
      (handleUpload o g2 hwnd uMsg id lParam).registry.uploads k = g2.uploads k) ∧
    (handleUpload o2 (handleUpload o g2 hwnd uMsg id lParam).registry hwnd uMsg id lParam).u
      = upload.zero ∧
    (handleUpload o2 (handleUpload o g2 hwnd uMsg id lParam).registry hwnd uMsg id
        lParam).registry.uploads
      = (handleUpload o g2 hwnd uMsg id lParam).registry.uploads := by
  have hinit : Pending Registry.init :=
    ⟨fun k u hk => by simp [Registry.init] at hk, by simp [Registry.init]⟩
  have hp := Pending_run steps Registry.init [] hinit hw
  generalize (run Registry.init [] steps).1 = g at hp ⊢
  have hnone := Pending_next_free g hp
  refine ⟨by simp [windowImpl.Upload], ?_, ?_, ?_, ?_, ?_, ?_⟩
  · rw [(handleUpload_registry _ _ _ _ _ _).2]
    simp [windowImpl.Upload]
  · rw [(handleUpload_registry _ _ _ _ _ _).1]
    funext k
    by_cases hk : k = uintptr (g.uploadID + 1)
    · simp [hk, hnone]
    · simp [windowImpl.Upload, hk]
  · rw [(handleUpload_registry _ _ _ _ _ _).1]
    simp
  · intro k hk
    rw [(handleUpload_registry _ _ _ _ _ _).1]
    simp [hk]
  · rw [(handleUpload_registry _ _ _ _ _ _).2, (handleUpload_registry _ _ _ _ _ _).1]
    simp
  · rw [(handleUpload_registry o2 _ _ _ _ _).1, (handleUpload_registry o _ _ _ _ _).1]
    funext k
    by_cases hk : k = id <;> simp [hk]

/-- Witness of C6 (amended) after `sampleSteps`, where the counter is 2 and id
2 is pending: `Upload` sends id 3, the handler run for id 3 hands back the
registered upload and leaves the map as before, id 2 still pending. -/
theorem upload_roundtrip_witness :
    noWrap Registry.init sampleSteps = true ∧
    (run Registry.init [] sampleSteps).1.uploads 2
      = some { dp := ⟨5, 5⟩, src := some ⟨22⟩, sr := ⟨⟨0, 0⟩, ⟨3, 3⟩⟩ } ∧
    (sampleWindow.Upload (run Registry.init [] sampleSteps).1 ⟨1, 1⟩
        (Buffer.impl (some ⟨23⟩)) ⟨⟨0, 0⟩, ⟨1, 1⟩⟩).2
      = ([(Call.SendMessage 7 Msg.msgUpload 3 LParam.zero, none)], none) ∧
    (handleUpload allSucceed
        (sampleWindow.Upload (run Registry.init [] sampleSteps).1 ⟨1, 1⟩
          (Buffer.impl (some ⟨23⟩)) ⟨⟨0, 0⟩, ⟨1, 1⟩⟩).1 7 0 3 LParam.zero).u
      = { dp := ⟨1, 1⟩, src := some ⟨23⟩, sr := ⟨⟨0, 0⟩, ⟨1, 1⟩⟩ } ∧
    (handleUpload allSucceed
        (sampleWindow.Upload (run Registry.init [] sampleSteps).1 ⟨1, 1⟩
          (Buffer.impl (some ⟨23⟩)) ⟨⟨0, 0⟩, ⟨1, 1⟩⟩).1 7 0 3 LParam.zero).registry.uploads
      = (run Registry.init [] sampleSteps).1.uploads :=
  ⟨rfl, rfl,
    (upload_roundtrip sampleSteps rfl sampleWindow ⟨1, 1⟩ (some ⟨23⟩) ⟨⟨0, 0⟩, ⟨1, 1⟩⟩
      allSucceed allSucceed 7 0 LParam.zero Registry.init 1).1,
    (upload_roundtrip sampleSteps rfl sampleWindow ⟨1, 1⟩ (some ⟨23⟩) ⟨⟨0, 0⟩, ⟨1, 1⟩⟩
      allSucceed allSucceed 7 0 LParam.zero Registry.init 1).2.1,
    (upload_roundtrip sampleSteps rfl sampleWindow ⟨1, 1⟩ (some ⟨23⟩) ⟨⟨0, 0⟩, ⟨1, 1⟩⟩
      allSucceed allSucceed 7 0 LParam.zero Registry.init 1).2.2.1⟩

/-! ## copyBitmapToDC and blend -/

/-- Whether a call writes pixels: `_BitBlt` or `_AlphaBlend`. -/
def Call.isBlit : Call → Bool
  | .BitBlt .. => true
  | .AlphaBlend .. => true
  | _ => false

/-- The pixel-writing calls of a log, in order. -/
def blits (log : List Entry) : List Entry := log.filter fun en => en.1.isBlit

/-- Native calls in which the alpha blend fails with code 5 and all else succeeds. -/
def alphaBlendFails : Outcomes := { allSucceed with AlphaBlend := some 5 }

/-- Native calls in which restoring the selection fails with code 6 and
deleting the memory context fails with code 8. -/
def cleanupFails : Outcomes :=
  { allSucceed with SelectRestore := .error 6, DeleteDC := some 8 }

/-- C7: for every operator other than `draw.Src` and `draw.Over` and every
outcome of the native calls, `copyBitmapToDC` returns a non-nil error and calls
neither `_BitBlt` nor `_AlphaBlend`; when creating the compatible DC and
selecting the source bitmap both succeed, the error is the invalid draw
operation error naming the operator, whatever the restoring selection returns. -/
theorem copyBitmapToDC_unsupported (o : Outcomes) (dc : Handle) (dp : Point) (src : Handle)
    (sr : Rectangle) (op : Op) (hs : op ≠ draw.Src) (ho : op ≠ draw.Over) :
    (copyBitmapToDC o dc dp src sr op).2 ≠ none ∧
    blits (copyBitmapToDC o dc dp src sr op).1 = [] ∧
    (errOf o.CreateCompatibleDC = none → errOf o.SelectObject = none →
      (copyBitmapToDC o dc dp src sr op).2 = some (Error.invalidOp op)) := by
  unfold copyBitmapToDC
  rcases o with ⟨gd, rd, cdc, so, bb, ab, sr2, dd, csb, fr, dob⟩
  cases cdc <;> cases so <;> simp [hs, ho, blits, Call.isBlit, errOf]

/-- Witness of C7: operator 2, with the restoring selection and the DC
deletion both failing, still yields the invalid draw operation error for 2. -/
theorem copyBitmapToDC_unsupported_witness :
    ((2 : Op) ≠ draw.Src ∧ (2 : Op) ≠ draw.Over) ∧
    (copyBitmapToDC cleanupFails 11 ⟨0, 0⟩ 30 ⟨⟨0, 0⟩, ⟨4, 4⟩⟩ 2).2
      = some (Error.invalidOp 2) ∧
    blits (copyBitmapToDC cleanupFails 11 ⟨0, 0⟩ 30 ⟨⟨0, 0⟩, ⟨4, 4⟩⟩ 2).1 = [] :=
  ⟨by decide,
    (copyBitmapToDC_unsupported cleanupFails 11 ⟨0, 0⟩ 30 ⟨⟨0, 0⟩, ⟨4, 4⟩⟩ 2
      (by decide) (by decide)).2.2 rfl rfl,
    (copyBitmapToDC_unsupported cleanupFails 11 ⟨0, 0⟩ 30 ⟨⟨0, 0⟩, ⟨4, 4⟩⟩ 2
      (by decide) (by decide)).2.1⟩

/-- C8 (divergence): when the compatible DC is created, the source bitmap is
selected into it (the previous bitmap being `prev`) and `_AlphaBlend` fails,
`blend` makes exactly four calls, create, select, blend and `_DeleteDC`, and
returns the blend error: the previous bitmap is not selected back. -/
theorem blend_alphaBlend_failure_no_restore (o : Outcomes) (dc bitmap : Handle) (dr : RECT)
    (sdx sdy : Int) (memdc prev : Handle) (e : Nat)
    (hc : o.CreateCompatibleDC = .ok memdc) (hsel : o.SelectObject = .ok prev)
    (hab : o.AlphaBlend = some e) :
    blend o dc bitmap dr sdx sdy
      = ([(Call.CreateCompatibleDC dc, none), (Call.SelectObject memdc bitmap, none),
          (Call.AlphaBlend dc dr.Left dr.Top (int32 (dr.Right - dr.Left))
            (int32 (dr.Bottom - dr.Top)) memdc 0 0 sdx sdy blendOverFunc, some e),
          (Call.DeleteDC memdc, o.DeleteDC)],
         some (Error.native e)) := by
  simp [blend, hc, hsel, hab]

/-- Witness of C8 (divergence): with memory context 12 and previous bitmap 13,
a failing alpha blend leaves `SelectObject 12 13` out of the calls made. -/
theorem blend_alphaBlend_failure_no_restore_witness :
    (alphaBlendFails.CreateCompatibleDC = .ok 12 ∧ alphaBlendFails.SelectObject = .ok 13 ∧
      alphaBlendFails.AlphaBlend = some 5) ∧
    blend alphaBlendFails 11 30 ⟨0, 0, 4, 4⟩ 1 1
      = ([(Call.CreateCompatibleDC 11, none), (Call.SelectObject 12 30, none),
          (Call.AlphaBlend 11 0 0 4 4 12 0 0 1 1 blendOverFunc, some 5),
          (Call.DeleteDC 12, none)],
         some (Error.native 5)) :=
  ⟨⟨rfl, rfl, rfl⟩,
    blend_alphaBlend_failure_no_restore alphaBlendFails 11 30 ⟨0, 0, 4, 4⟩ 1 1 12 13 5
      rfl rfl rfl⟩

/-- The error of the first call of a log that failed, nil when none did. -/
def firstError (log : List Entry) : Option Error :=
  toError (log.findSome? fun en => en.2)

/-- The five native calls of `blend` in program order, for the memory context
`memdc` and the previously selected bitmap `prev`. -/
def blendOrder (dc bitmap : Handle) (dr : RECT) (sdx sdy : Int) (memdc prev : Handle) :
    List Call :=
  [.CreateCompatibleDC dc, .SelectObject memdc bitmap,
   .AlphaBlend dc dr.Left dr.Top (int32 (dr.Right - dr.Left)) (int32 (dr.Bottom - dr.Top))
     memdc 0 0 sdx sdy blendOverFunc,
   .SelectObject memdc prev, .DeleteDC memdc]

/-- C9: for every outcome of the native calls, `blend` returns the error of the
first call that failed among the calls it executed, which it makes in the order
create, select, blend, restore, delete; it returns nil exactly when every
executed call succeeded; and once the DC is created, the `_DeleteDC` error is
the result when no earlier call failed, and is suppressed in favour of the
first earlier error otherwise. -/
theorem blend_error_result (o : Outcomes) (dc bitmap : Handle) (dr : RECT) (sdx sdy : Int) :
    (blend o dc bitmap dr sdx sdy).2 = firstError (blend o dc bitmap dr sdx sdy).1 ∧
    ((blend o dc bitmap dr sdx sdy).2 = none ↔
      ∀ en ∈ (blend o dc bitmap dr sdx sdy).1, en.2 = none) ∧
    (∃ memdc prev, ((blend o dc bitmap dr sdx sdy).1.map Prod.fst).Sublist
      (blendOrder dc bitmap dr sdx sdy memdc prev)) ∧
    (∀ memdc, o.CreateCompatibleDC = .ok memdc →
      ∃ earlier, (blend o dc bitmap dr sdx sdy).1 = earlier ++ [(Call.DeleteDC memdc, o.DeleteDC)] ∧
        ((∀ en ∈ earlier, en.2 = none) →
          (blend o dc bitmap dr sdx sdy).2 = toError o.DeleteDC) ∧
        ((∃ en ∈ earlier, en.2 ≠ none) →
          (blend o dc bitmap dr sdx sdy).2 = firstError earlier ∧
          firstError earlier ≠ none)) := by
  unfold blend
  rcases o with ⟨gd, rd, cdc, so, bb, ab, sr2, dd, csb, fr, dob⟩
  cases cdc with
  | error e =>
    refine ⟨by simp [firstError, toError], by simp, ⟨0, 0, ?_⟩, by simp⟩
    simp [blendOrder]
  | ok memdc =>
    cases so with
    | error e =>
      refine ⟨by simp [firstError, toError], by simp, ⟨memdc, 0, ?_⟩, ?_⟩
      · simp [blendOrder]
      · intro m hm
        cases hm
        refine ⟨[(Call.CreateCompatibleDC dc, none), (Call.SelectObject memdc bitmap, some e)],
          by simp, ?_, ?_⟩
        · intro h
          have := h (Call.SelectObject memdc bitmap, some e) (by simp)
          simp at this
        · intro _
          simp [firstError, toError]
    | ok prev =>
      cases ab with
      | some e =>
        refine ⟨by simp [firstError, toError], by simp, ⟨memdc, prev, ?_⟩, ?_⟩
        · simp [blendOrder]
        · intro m hm
          cases hm
          refine ⟨[(Call.CreateCompatibleDC dc, none), (Call.SelectObject memdc bitmap, none),
            (Call.AlphaBlend dc dr.Left dr.Top (int32 (dr.Right - dr.Left))
              (int32 (dr.Bottom - dr.Top)) memdc 0 0 sdx sdy blendOverFunc, some e)],
            by simp, ?_, ?_⟩
          · intro h
            have := h (Call.AlphaBlend dc dr.Left dr.Top (int32 (dr.Right - dr.Left))
              (int32 (dr.Bottom - dr.Top)) memdc 0 0 sdx sdy blendOverFunc, some e) (by simp)
            simp at this
          · intro _
            simp [firstError, toError]
      | none =>
        cases sr2 with
        | error e =>
          refine ⟨by simp [firstError, toError, errOf], by simp [toError, errOf],
            ⟨memdc, prev, ?_⟩, ?_⟩
          · simp [blendOrder]
          · intro m hm
            cases hm
            refine ⟨[(Call.CreateCompatibleDC dc, none), (Call.SelectObject memdc bitmap, none),
              (Call.AlphaBlend dc dr.Left dr.Top (int32 (dr.Right - dr.Left))
                (int32 (dr.Bottom - dr.Top)) memdc 0 0 sdx sdy blendOverFunc, none),
              (Call.SelectObject memdc prev, some e)],
              by simp [errOf], ?_, ?_⟩
            · intro h
              have := h (Call.SelectObject memdc prev, some e) (by simp)
              simp at this
            · intro _
              simp [firstError, toError, errOf]
        | ok h2 =>
          refine ⟨?_, ?_, ⟨memdc, prev, ?_⟩, ?_⟩
          · cases dd <;> simp [firstError, toError, errOf]
          · cases dd <;> simp [toError, errOf]
          · simp [blendOrder]
          · intro m hm
            cases hm
            refine ⟨[(Call.CreateCompatibleDC dc, none), (Call.SelectObject memdc bitmap, none),
              (Call.AlphaBlend dc dr.Left dr.Top (int32 (dr.Right - dr.Left))
                (int32 (dr.Bottom - dr.Top)) memdc 0 0 sdx sdy blendOverFunc, none),
              (Call.SelectObject memdc prev, none)],
              by simp [errOf], ?_, ?_⟩
            · intro _
              simp [toError, errOf]
            · rintro ⟨en, hen, hne⟩
              simp at hen
              rcases hen with rfl | rfl | rfl | rfl <;> simp at hne

/-- Witness of C9: when the restoring selection fails with code 6 and
`_DeleteDC` fails with code 8, `blend` returns the earlier error, code 6. -/
theorem blend_error_result_witness :
    cleanupFails.CreateCompatibleDC = .ok 12 ∧
    (blend cleanupFails 11 30 ⟨0, 0, 4, 4⟩ 1 1).2 = some (Error.native 6) ∧
    (∃ earlier, (blend cleanupFails 11 30 ⟨0, 0, 4, 4⟩ 1 1).1
        = earlier ++ [(Call.DeleteDC 12, cleanupFails.DeleteDC)] ∧
      ((∀ en ∈ earlier, en.2 = none) →
        (blend cleanupFails 11 30 ⟨0, 0, 4, 4⟩ 1 1).2 = toError cleanupFails.DeleteDC) ∧
      ((∃ en ∈ earlier, en.2 ≠ none) →
        (blend cleanupFails 11 30 ⟨0, 0, 4, 4⟩ 1 1).2 = firstError earlier ∧
        firstError earlier ≠ none)) :=
  ⟨rfl, (blend_error_result cleanupFails 11 30 ⟨0, 0, 4, 4⟩ 1 1).1,
    (blend_error_result cleanupFails 11 30 ⟨0, 0, 4, 4⟩ 1 1).2.2.2 12 rfl⟩

/-! ## copyBitmapToDC: arguments of the blit -/

/-- A value in the `int32` range is unchanged by the conversion `int32`. -/
theorem int32_of_inRange (x : Int) (hlo : -2 ^ 31 ≤ x) (hhi : x < 2 ^ 31) : int32 x = x := by
  unfold int32 wrapSigned
  norm_num at *
  omega

/-- C10, as stated, fails for a destination point outside the `int32` range:
with `dp.X = 2^31` and `draw.Src`, all native calls succeeding, the only blit
is a `_BitBlt` whose destination x is `-2^31`, not `dp.X`. -/
theorem copyBitmapToDC_wide_point_counterexample :
    blits (copyBitmapToDC allSucceed 11 ⟨2147483648, 0⟩ 30 ⟨⟨0, 0⟩, ⟨4, 4⟩⟩ draw.Src).1
      = [(Call.BitBlt 11 (-2147483648) 0 4 4 12 0 0 SRCCOPY, none)] ∧
    blits (copyBitmapToDC allSucceed 11 ⟨2147483648, 0⟩ 30 ⟨⟨0, 0⟩, ⟨4, 4⟩⟩ draw.Src).1
      ≠ [(Call.BitBlt 11 2147483648 0 4 4 12 0 0 SRCCOPY, none)] := by
  decide

/-- C10, amended: when DC creation and bitmap selection succeed, with
`draw.Src` the only blit is one `_BitBlt` whose destination origin, extent and
source origin are `dp`, `(sr.Dx(), sr.Dy())` and `sr.Min` converted to `int32`,
and with `draw.Over` it is one `_AlphaBlend` with the converted destination
origin, destination and source extent both the converted `(sr.Dx(), sr.Dy())`,
and source origin `(0, 0)`. The conversion leaves values in the `int32` range
unchanged. For `draw.Over` two source rectangles of equal size give the same
calls and result whatever `sr.Min` is; for `draw.Src` the rectangles
(0,0)-(4,4) and (1,1)-(5,5), of equal size, give different blits. -/
theorem copyBitmapToDC_blit_args (o : Outcomes) (dc : Handle) (dp : Point) (src : Handle)
    (sr : Rectangle) (memdc prev : Handle) (hc : o.CreateCompatibleDC = .ok memdc)
    (hsel : o.SelectObject = .ok prev) :
    blits (copyBitmapToDC o dc dp src sr draw.Src).1
      = [(Call.BitBlt dc (int32 dp.X) (int32 dp.Y) (int32 sr.Dx) (int32 sr.Dy) memdc
            (int32 sr.Min.X) (int32 sr.Min.Y) SRCCOPY, o.BitBlt)] ∧
    blits (copyBitmapToDC o dc dp src sr draw.Over).1
      = [(Call.AlphaBlend dc (int32 dp.X) (int32 dp.Y) (int32 sr.Dx) (int32 sr.Dy) memdc
            0 0 (int32 sr.Dx) (int32 sr.Dy) blendOverFunc, o.AlphaBlend)] ∧
    (∀ x : Int, -2 ^ 31 ≤ x → x < 2 ^ 31 → int32 x = x) ∧
    (∀ sr2 : Rectangle, sr2.Dx = sr.Dx → sr2.Dy = sr.Dy →
      copyBitmapToDC o dc dp src sr2 draw.Over = copyBitmapToDC o dc dp src sr draw.Over) ∧
    blits (copyBitmapToDC o dc dp src ⟨⟨0, 0⟩, ⟨4, 4⟩⟩ draw.Src).1
      ≠ blits (copyBitmapToDC o dc dp src ⟨⟨1, 1⟩, ⟨5, 5⟩⟩ draw.Src).1 := by
  refine ⟨?_, ?_, int32_of_inRange, ?_, ?_⟩
  · simp [copyBitmapToDC, hc, hsel, blits, Call.isBlit]
  · simp [copyBitmapToDC, hc, hsel, blits, Call.isBlit, draw.Over, draw.Src]
  · intro sr2 hx hy
    simp [copyBitmapToDC, hx, hy, draw.Over, draw.Src]
  · simp [copyBitmapToDC, hc, hsel, blits, Call.isBlit]
    decide

/-- Witness of C10 (amended): copying the rectangle (1,2)-(5,8) to (10,20)
with all native calls succeeding is one `_BitBlt` of extent 4 by 6 from source
origin (1,2) for `draw.Src`, and one `_AlphaBlend` from source origin (0,0) for
`draw.Over`. -/
theorem copyBitmapToDC_blit_args_witness :
    (allSucceed.CreateCompatibleDC = .ok 12 ∧ allSucceed.SelectObject = .ok 13) ∧
    blits (copyBitmapToDC allSucceed 11 ⟨10, 20⟩ 30 ⟨⟨1, 2⟩, ⟨5, 8⟩⟩ draw.Src).1
      = [(Call.BitBlt 11 10 20 4 6 12 1 2 SRCCOPY, none)] ∧
    blits (copyBitmapToDC allSucceed 11 ⟨10, 20⟩ 30 ⟨⟨1, 2⟩, ⟨5, 8⟩⟩ draw.Over).1
      = [(Call.AlphaBlend 11 10 20 4 6 12 0 0 4 6 blendOverFunc, none)] :=
  ⟨⟨rfl, rfl⟩,
    (copyBitmapToDC_blit_args allSucceed 11 ⟨10, 20⟩ 30 ⟨⟨1, 2⟩, ⟨5, 8⟩⟩ 12 13 rfl rfl).1,
    (copyBitmapToDC_blit_args allSucceed 11 ⟨10, 20⟩ 30 ⟨⟨1, 2⟩, ⟨5, 8⟩⟩ 12 13 rfl rfl).2.1⟩

end Windriver
